import Mathlib

/-!
Verification of the miyakowasure-check / ryokan-check repository.

This file shallowly embeds the parts of the Python source that the checked
claims are about:

* the availability parsers of the two scraping strategies
  (`miyakowasure_check/scraper.py` `YadosysScraper._check_room_availability`
  and `ryokan_check/properties/miyamaso/scraper.py` `BanScraper._parse_room_page`),
  including an executable model of the Python `re` searches they perform;
* the room catalogs (`MiyakowasureRoom.from_string`, `MiyamasoRoom.from_string`,
  `MiyamasoRoom.parse_multiple`);
* the notification state store (`ryokan_check/state.py` `NotificationState`).

Modelling conventions:

* Python `str` is Lean `String` / `List Char`; `s.lower()` is a character-wise
  `Char.toLower` (the strings involved are ASCII plus CJK characters, on which
  Python `str.lower` agrees with this);
* `datetime` values are abstracted to integers (ticks in seconds);
  `timedelta(hours=h)` is `3600 * h`; `datetime.isoformat` is modelled by an
  injective rendering of the integer and `datetime.fromisoformat` by its
  partial inverse, which fails (`ValueError`) on strings that are not such a
  rendering;
* Python exceptions are modelled with `Except`;
* the state file is modelled as parsed JSON content (`FileContent`), since
  `json.loads`/`json.dumps` round-trip exactly the object shapes the code
  writes.
-/

/-! ### Python string primitives -/

/-- Model of Python `str.lower` on a character list (character-wise ASCII lowering;
agrees with Python on the ASCII/CJK strings used by this program). -/
def pyLower (cs : List Char) : List Char := cs.map Char.toLower

/-- Whitespace test used by the model of Python `str.strip`. -/
def pyIsSpace (c : Char) : Bool :=
  c == ' ' || c == '\t' || c == '\n' || c == '\r' || c == '\x0b' || c == '\x0c'

/-- Model of Python `str.strip` (drop leading and trailing whitespace). -/
def pyStrip (cs : List Char) : List Char :=
  ((cs.dropWhile pyIsSpace).reverse.dropWhile pyIsSpace).reverse

/-- Model of Python `s.lower().strip()`, the normalisation applied by
`from_string` in both room catalogs. -/
def pyNormalize (s : String) : String := ⟨pyStrip (pyLower s.data)⟩

/-- `startsWithChars n h`: `n` is a prefix of `h`. -/
def startsWithChars : List Char → List Char → Bool
  | [], _ => true
  | _ :: _, [] => false
  | c :: cs, x :: xs => c == x && startsWithChars cs xs

/-- Model of Python `needle in hay` (contiguous substring test). -/
def containsSub (needle : List Char) : List Char → Bool
  | [] => needle.isEmpty
  | x :: xs => startsWithChars needle (x :: xs) || containsSub needle xs

/-- Digit value of an ASCII digit character, `none` otherwise. -/
def charToDigit (c : Char) : Option Nat :=
  if '0' ≤ c ∧ c ≤ '9' then some (c.toNat - 48) else none

/-- Parse a character list as a list of digit values (all characters must be
ASCII digits). -/
def parseDigits : List Char → Option (List Nat)
  | [] => some []
  | c :: cs =>
    match charToDigit c, parseDigits cs with
    | some d, some ds => some (d :: ds)
    | _, _ => none

/-- Model of Python `int(s)` for the strings this program feeds it
(digit-only strings; anything else raises `ValueError`, modelled as `none`).
Python `int` also accepts signs and surrounding whitespace, but the callers
only pass substrings matched by digit character classes. -/
def pyInt (cs : List Char) : Option Nat :=
  if cs.isEmpty then none
  else (parseDigits cs).map (fun ds => Nat.ofDigits 10 ds.reverse)

/-- Model of Python `"...".replace(",", "")` as used on matched price strings. -/
def stripCommas (cs : List Char) : List Char := cs.filter (fun c => c ≠ ',')

/-! ### A model of the Python `re` searches performed by the scrapers

Only the constructs appearing in the scrapers' patterns are modelled:
literals, `.` under `re.DOTALL`, character classes, `\d`, `\s`,
concatenation, alternation (leftmost preference), lazy star `.*?`,
greedy star/plus over single-character atoms, `?`, and capturing groups.
`re.IGNORECASE` is threaded through as a flag.  `re.search` semantics:
the match starting at the leftmost possible position wins, and within a
position the backtracking preference order is Python's (alternation tries
the left branch first, lazy stars prefer fewer iterations, greedy
stars/pluses prefer more). -/

/-- Single-character regex atoms. -/
inductive RAtom : Type
  | anyc : RAtom
  | cls (cs : List Char) (neg : Bool) : RAtom
  | digit : RAtom
  | space : RAtom
deriving DecidableEq

/-- Character comparison under an optional IGNORECASE flag. -/
def charEqCI (ic : Bool) (a b : Char) : Bool :=
  if ic then a.toLower == b.toLower else a == b

/-- Does atom `a` match character `c`?  (`anyc` is `.` under `re.DOTALL`.) -/
def RAtom.matchc (ic : Bool) (a : RAtom) (c : Char) : Bool :=
  match a with
  | .anyc => true
  | .cls cs neg =>
    let mem := cs.any (fun x => charEqCI ic x c)
    if neg then !mem else mem
  | .digit => '0' ≤ c && c ≤ '9'
  | .space => pyIsSpace c

/-- Regex abstract syntax for the patterns used by the scrapers. -/
inductive RE : Type
  | eps : RE
  | lit (cs : List Char) : RE
  | atom (a : RAtom) : RE
  | cat (r1 r2 : RE) : RE
  | alt (r1 r2 : RE) : RE
  | starL (a : RAtom) : RE
  | starG (a : RAtom) : RE
  | plusG (a : RAtom) : RE
  | opt (r : RE) : RE
  | group (n : Nat) (r : RE) : RE
deriving DecidableEq

/-- Captured groups of a match: group index paired with captured text.
The most recent capture of a group is listed first. -/
abbrev RGroups : Type := List (Nat × List Char)

/-- Match a literal character sequence at the head of the input. -/
def matchLit (ic : Bool) : List Char → List Char → RGroups →
    (List Char → RGroups → Option RGroups) → Option RGroups
  | [], s, g, k => k s g
  | _ :: _, [], _, _ => none
  | c :: cs, x :: xs, g, k =>
    if charEqCI ic c x then matchLit ic cs xs g k else none

/-- Lazy star over a single-character atom: prefer zero iterations. -/
def starLazy (ic : Bool) (a : RAtom) : List Char → RGroups →
    (List Char → RGroups → Option RGroups) → Option RGroups
  | s, g, k =>
    match k s g with
    | some r => some r
    | none =>
      match s with
      | [] => none
      | c :: rest => if a.matchc ic c then starLazy ic a rest g k else none

/-- Greedy star over a single-character atom: prefer maximal iterations. -/
def starGreedy (ic : Bool) (a : RAtom) : List Char → RGroups →
    (List Char → RGroups → Option RGroups) → Option RGroups
  | [], g, k => k [] g
  | c :: rest, g, k =>
    if a.matchc ic c then
      match starGreedy ic a rest g k with
      | some r => some r
      | none => k (c :: rest) g
    else k (c :: rest) g

/-- Backtracking matcher in continuation-passing style.  `matchRE ic r s g k`
tries to match `r` at the head of `s`, calling `k` with the remaining input
and accumulated groups, in Python's preference order. -/
def matchRE (ic : Bool) : RE → List Char → RGroups →
    (List Char → RGroups → Option RGroups) → Option RGroups
  | .eps, s, g, k => k s g
  | .lit cs, s, g, k => matchLit ic cs s g k
  | .atom a, s, g, k =>
    match s with
    | [] => none
    | c :: rest => if a.matchc ic c then k rest g else none
  | .cat r1 r2, s, g, k =>
    matchRE ic r1 s g (fun s' g' => matchRE ic r2 s' g' k)
  | .alt r1 r2, s, g, k =>
    match matchRE ic r1 s g k with
    | some r => some r
    | none => matchRE ic r2 s g k
  | .starL a, s, g, k => starLazy ic a s g k
  | .starG a, s, g, k => starGreedy ic a s g k
  | .plusG a, s, g, k =>
    match s with
    | [] => none
    | c :: rest => if a.matchc ic c then starGreedy ic a rest g k else none
  | .opt r, s, g, k =>
    match matchRE ic r s g k with
    | some x => some x
    | none => k s g
  | .group n r, s, g, k =>
    matchRE ic r s g (fun s' g' => k s' ((n, s.take (s.length - s'.length)) :: g'))

/-- Try to match `r` at successive start positions (model of `re.search`'s
leftmost-match rule). -/
def searchFrom (ic : Bool) (r : RE) : List Char → Option RGroups
  | [] => matchRE ic r [] [] (fun _ g => some g)
  | c :: rest =>
    match matchRE ic r (c :: rest) [] (fun _ g => some g) with
    | some g => some g
    | none => searchFrom ic r rest

/-- Model of `re.search(pattern, content, flags)`: `some groups` on a match. -/
def reSearch (ic : Bool) (r : RE) (content : List Char) : Option RGroups :=
  searchFrom ic r content

/-- Model of `re.search(...) is not None`. -/
def reTest (ic : Bool) (r : RE) (content : List Char) : Bool :=
  (reSearch ic r content).isSome

/-- Model of `match.group(1)`: text of the most recent capture of group 1. -/
def group1 (g : RGroups) : Option (List Char) :=
  (g.find? (fun p => p.1 == 1)).map (fun p => p.2)

/-! ### Room catalogs

From `ryokan_check/properties/miyakowasure/rooms.py` (identical enum to
`miyakowasure_check/models.py` `RoomType`) and
`ryokan_check/properties/miyamaso/rooms.py`. -/

/-- `MiyakowasureRoom` enum (room id strings of the Yadosys booking system). -/
inductive MiyakowasureRoom : Type
  | TSUBAKI_VIEW | MOMIJI_VIP | MOMIJI_TWIN | MOMIJI_RIVER | SAKURA_RIVER | TSUBAKI_TOILET
deriving DecidableEq

/-- Enum `value` (the Yadosys room id). -/
def MiyakowasureRoom.value : MiyakowasureRoom → String
  | .TSUBAKI_VIEW => "00008"
  | .MOMIJI_VIP => "00006"
  | .MOMIJI_TWIN => "00007"
  | .MOMIJI_RIVER => "00005"
  | .SAKURA_RIVER => "00001"
  | .TSUBAKI_TOILET => "00002"

/-- `MiyakowasureRoom.display_name`. -/
def MiyakowasureRoom.display_name : MiyakowasureRoom → String
  | .TSUBAKI_VIEW => "TSUBAKI-KAN (Room with a view)"
  | .MOMIJI_VIP => "MOMIJI-KAN VIP ROOM"
  | .MOMIJI_TWIN => "MOMIJI-KAN Western twin bed"
  | .MOMIJI_RIVER => "MOMIJI-KAN (river view)"
  | .SAKURA_RIVER => "SAKURA-KAN (river view)"
  | .TSUBAKI_TOILET => "TSUBAKI-KAN (private toilet)"

/-- Alias table of `MiyakowasureRoom.from_string`, in source order. -/
def miyakowasureAliases : List (String × MiyakowasureRoom) :=
  [("tsubaki-view", .TSUBAKI_VIEW), ("tsubaki_view", .TSUBAKI_VIEW),
   ("momiji-vip", .MOMIJI_VIP), ("momiji_vip", .MOMIJI_VIP), ("vip", .MOMIJI_VIP),
   ("momiji-twin", .MOMIJI_TWIN), ("momiji_twin", .MOMIJI_TWIN), ("twin", .MOMIJI_TWIN),
   ("momiji-river", .MOMIJI_RIVER), ("momiji_river", .MOMIJI_RIVER), ("momiji", .MOMIJI_RIVER),
   ("sakura-river", .SAKURA_RIVER), ("sakura_river", .SAKURA_RIVER), ("sakura", .SAKURA_RIVER),
   ("tsubaki-toilet", .TSUBAKI_TOILET), ("tsubaki_toilet", .TSUBAKI_TOILET),
   ("tsubaki", .TSUBAKI_TOILET)]

/-- Model of Python `dict.get` on a literal alias table. -/
def aliasGet {α : Type} (table : List (String × α)) (key : String) : Option α :=
  (table.find? (fun p => p.1 == key)).map (fun p => p.2)

/-- `MiyakowasureRoom.from_string`: `mapping.get(s.lower().strip())`. -/
def MiyakowasureRoom.from_string (s : String) : Option MiyakowasureRoom :=
  aliasGet miyakowasureAliases (pyNormalize s)

/-- `MiyamasoRoom` enum (room id strings of the 489ban.net booking system). -/
inductive MiyamasoRoom : Type
  | HINAKURA | RIAN_SANSUI_MAISONETTE | RIAN_SANSUI_JAPANESE
deriving DecidableEq

/-- Enum `value` (the 489ban.net room id). -/
def MiyamasoRoom.value : MiyamasoRoom → String
  | .HINAKURA => "25112"
  | .RIAN_SANSUI_MAISONETTE => "25114"
  | .RIAN_SANSUI_JAPANESE => "25113"

/-- `MiyamasoRoom.display_name`. -/
def MiyamasoRoom.display_name : MiyamasoRoom → String
  | .HINAKURA => "HINAKURA Villa (Private Onsen Suite, 110m2)"
  | .RIAN_SANSUI_MAISONETTE => "Rian Sansui Maisonette (Private Onsen, 51m2)"
  | .RIAN_SANSUI_JAPANESE => "Rian Sansui Japanese (Private Onsen, 51m2)"

/-- Alias table of `MiyamasoRoom.from_string`, in source order. -/
def miyamasoAliases : List (String × MiyamasoRoom) :=
  [("hinakura", .HINAKURA), ("hina", .HINAKURA), ("villa", .HINAKURA),
   ("rian", .RIAN_SANSUI_MAISONETTE), ("rian-sansui", .RIAN_SANSUI_MAISONETTE),
   ("rian_sansui", .RIAN_SANSUI_MAISONETTE), ("sansui", .RIAN_SANSUI_MAISONETTE),
   ("rian-maisonette", .RIAN_SANSUI_MAISONETTE), ("rian_maisonette", .RIAN_SANSUI_MAISONETTE),
   ("maisonette", .RIAN_SANSUI_MAISONETTE),
   ("rian-japanese", .RIAN_SANSUI_JAPANESE), ("rian_japanese", .RIAN_SANSUI_JAPANESE),
   ("rian-jp", .RIAN_SANSUI_JAPANESE)]

/-- `MiyamasoRoom.from_string`: `mapping.get(s.lower().strip())`. -/
def MiyamasoRoom.from_string (s : String) : Option MiyamasoRoom :=
  aliasGet miyamasoAliases (pyNormalize s)

/-- `MiyamasoRoom.parse_multiple`: the bare Rian family aliases expand to both
Rian Sansui variants; anything else defers to `from_string`. -/
def MiyamasoRoom.parse_multiple (s : String) : List MiyamasoRoom :=
  let s_lower := pyNormalize s
  if s_lower = "rian" ∨ s_lower = "rian-sansui" ∨ s_lower = "rian_sansui" ∨ s_lower = "sansui" then
    [.RIAN_SANSUI_MAISONETTE, .RIAN_SANSUI_JAPANESE]
  else
    match MiyamasoRoom.from_string s_lower with
    | some room => [room]
    | none => []

/-! ### Yadosys scraper availability parser

From `miyakowasure_check/scraper.py`, `YadosysScraper._check_room_availability`.
The method interpolates `room_type.display_name` verbatim (unescaped) into its
regex patterns, so parentheses occurring in a display name are parsed by `re`
as capturing groups around their contents — the literal `(` and `)` characters
are not matched, and such a group shifts the numbering that `match.group(1)`
refers to.  `nameREChars` reproduces that reading.  The method also computes a
`has_room` flag from live page locators, but that flag is never used
afterwards, so the embedding takes only the rendered page content. -/

/-- Interpret a display name interpolated into a pattern as `re` does:
`(` opens a capturing group (numbered from `g`), `)` closes it, every other
character is a literal.  The second argument accumulates the characters of an
open group in reverse; names contain at most one non-nested pair. -/
def nameREAux : Nat → Option (List Char) → List Char → RE × Nat
  | g, none, [] => (.eps, g)
  | g, some acc, [] => (.group g (.lit acc.reverse), g + 1)
  | g, none, c :: rest =>
    if c = '(' then nameREAux g (some []) rest
    else
      let (r, g') := nameREAux g none rest
      (.cat (.lit [c]) r, g')
  | g, some acc, c :: rest =>
    if c = ')' then
      let (r, g') := nameREAux (g + 1) none rest
      (.cat (.group g (.lit acc.reverse)) r, g')
    else nameREAux g (some (c :: acc)) rest

/-- The regex a display name denotes when interpolated into a pattern, with
its capturing groups numbered from `g`; also returns the next free group
number. -/
def nameRE (name : String) (g : Nat) : RE × Nat := nameREAux g none name.data

/-- `.*?` under `re.DOTALL`. -/
def lazyDot : RE := .starL .anyc

/-- The character class `[¥￥]`. -/
def yenCls : RAtom := .cls ['¥', '￥'] false

/-- The character class `[0-9,]`. -/
def digitsCommaCls : RAtom := .cls "0123456789,".data false

/-- Pattern `f"{room_name}.*?{re.escape(marker)}|{re.escape(marker)}.*?{room_name}"`
(the markers contain no regex metacharacters, so escaping them is the
identity).  Group numbers inside the second copy of the name follow those of
the first, as `re` numbers groups by textual position. -/
def markerWindowRE (room_name marker : String) : RE :=
  let (n1, g1) := nameRE room_name 1
  let (n2, _) := nameRE room_name g1
  .alt (.cat n1 (.cat lazyDot (.lit marker.data)))
       (.cat (.lit marker.data) (.cat lazyDot n2))

/-- The ordered price patterns
`[rf"{room_name}.*?[¥￥]([0-9,]+)", rf"[¥￥]([0-9,]+).*?{room_name}", r"[¥￥]([0-9,]+)"]`. -/
def yadosysPricePatterns (room_name : String) : List RE :=
  let (n1, g1) := nameRE room_name 1
  let (n2, _) := nameRE room_name 2
  [.cat n1 (.cat lazyDot (.cat (.atom yenCls) (.group g1 (.plusG digitsCommaCls)))),
   .cat (.atom yenCls) (.cat (.group 1 (.plusG digitsCommaCls)) (.cat lazyDot n2)),
   .cat (.atom yenCls) (.group 1 (.plusG digitsCommaCls))]

/-- Pattern `r"(\d+)\s*(?:rooms?|left|remaining|組|室)"`. -/
def spotsRE : RE :=
  .cat (.group 1 (.plusG .digit))
    (.cat (.starG .space)
      (.alt (.cat (.lit "room".data) (.opt (.lit "s".data)))
        (.alt (.lit "left".data)
          (.alt (.lit "remaining".data)
            (.alt (.lit "組".data) (.lit "室".data))))))

/-- `unavailable_markers` of the Yadosys scraper, in source order. -/
def yadosysUnavailableMarkers : List String := ["×", "満室", "sold out", "unavailable", "no vacancy"]

/-- `available_markers` of the Yadosys scraper, in source order. -/
def yadosysAvailableMarkers : List String := ["○", "◎", "空室", "available", "vacancy"]

/-- The price-pattern loop of `_check_room_availability`:

    for pattern in price_patterns:
        match = re.search(pattern, content, re.IGNORECASE | re.DOTALL)
        if match:
            price_str = match.group(1).replace(",", "")
            try:
                price = int(price_str)
                if 10000 <= price <= 100000:
                    break
            except ValueError:
                pass

`price` is assigned before the band test, so an out-of-band value stays in
`price` when the loop moves on; a `ValueError` leaves the previous value.
Group 1 participates in every match of these patterns, so the `group1 = none`
branch is unreachable and skips like a failed search. -/
def yadosysPriceLoop : List RE → List Char → Option Nat → Option Nat
  | [], _, price => price
  | p :: rest, content, price =>
    match reSearch true p content with
    | none => yadosysPriceLoop rest content price
    | some g =>
      match group1 g with
      | none => yadosysPriceLoop rest content price
      | some cs =>
        match pyInt (stripCommas cs) with
        | none => yadosysPriceLoop rest content price
        | some v =>
          if 10000 ≤ v ∧ v ≤ 100000 then some v
          else yadosysPriceLoop rest content (some v)

/-- `YadosysScraper._check_room_availability`, as the function from rendered
page content and room to `(is_available, price_per_person, spots_left)` (the
surrounding `RoomAvailability` object copies the configured dates). -/
def checkRoomAvailability (content : String) (room : MiyakowasureRoom) :
    Bool × Option Nat × Option Nat :=
  let room_name := room.display_name
  let room_id := room.value
  let content_lower := pyLower content.data
  let room_name_lower := pyLower room_name.data
  if containsSub room_name_lower content_lower || containsSub room_id.data content.data then
    let hit_unavailable :=
      yadosysUnavailableMarkers.any (fun m => reTest true (markerWindowRE room_name m) content.data)
    let is_available :=
      if hit_unavailable then false
      else yadosysAvailableMarkers.any (fun m => containsSub m.data content.data)
    let price := yadosysPriceLoop (yadosysPricePatterns room_name) content.data none
    let spots_left :=
      match reSearch true spotsRE content.data with
      | some g => (group1 g).bind (fun cs => pyInt cs)
      | none => none
    let is_available :=
      if !is_available &&
         (match price with | some p => p != 0 && p > 10000 | none => false) then true
      else is_available
    (is_available, price, spots_left)
  else
    (false, none, none)

/-! ### Miyamaso (489ban.net) scraper availability parser

From `ryokan_check/properties/miyamaso/scraper.py`, `BanScraper._parse_room_page`.
The method receives only the rendered room-detail page content — the target
room is not passed in and no presence check is performed (the surrounding
`_check_room_availability` navigates to a per-room detail URL instead). -/

/-- `unavailable_markers` of `_parse_room_page`, in source order. -/
def miyamasoUnavailableMarkers : List String :=
  ["sold out", "no vacancy", "満室", "完売", "予約できません", "this plan is sold out"]

/-- `available_markers` of `_parse_room_page`, in source order. -/
def miyamasoAvailableMarkers : List String :=
  ["details", "reservations", "予約", "詳細", "book now", "reserve"]

/-- The ordered price patterns
`[r"([0-9,]+)\s*JPY", r"[¥￥]([0-9,]+)", r"([0-9,]+)\s*円"]`. -/
def miyamasoPricePatterns : List RE :=
  [.cat (.group 1 (.plusG digitsCommaCls)) (.cat (.starG .space) (.lit "JPY".data)),
   .cat (.atom yenCls) (.group 1 (.plusG digitsCommaCls)),
   .cat (.group 1 (.plusG digitsCommaCls)) (.cat (.starG .space) (.lit "円".data))]

/-- The button patterns built for a marker:
`[rf'<button[^>]*>{marker}', rf'<a[^>]*>{marker}', rf'class="[^"]*btn[^"]*"[^>]*>{marker}']`
(the markers contain no regex metacharacters). -/
def buttonPatterns (marker : String) : List RE :=
  [.cat (.lit "<button".data) (.cat (.starG (.cls ['>'] true)) (.cat (.lit ">".data) (.lit marker.data))),
   .cat (.lit "<a".data) (.cat (.starG (.cls ['>'] true)) (.cat (.lit ">".data) (.lit marker.data))),
   .cat (.lit "class=\"".data)
     (.cat (.starG (.cls ['"'] true))
       (.cat (.lit "btn".data)
         (.cat (.starG (.cls ['"'] true))
           (.cat (.lit "\"".data)
             (.cat (.starG (.cls ['>'] true)) (.cat (.lit ">".data) (.lit marker.data)))))))]

/-- The price-pattern loop of `_parse_room_page`: `price` and `is_available`
are assigned only when the parsed value lies in the 15,000–150,000 band;
an out-of-band value or a `ValueError` moves on to the next pattern. -/
def miyamasoPriceLoop : List RE → List Char → Option Nat × Bool
  | [], _ => (none, false)
  | p :: rest, content =>
    match reSearch true p content with
    | none => miyamasoPriceLoop rest content
    | some g =>
      match group1 g with
      | none => miyamasoPriceLoop rest content
      | some cs =>
        match pyInt (stripCommas cs) with
        | none => miyamasoPriceLoop rest content
        | some v =>
          if 15000 ≤ v ∧ v ≤ 150000 then (some v, true)
          else miyamasoPriceLoop rest content

/-- `BanScraper._parse_room_page`: rendered page content to
`(is_available, price_per_person)`. -/
def parseRoomPage (content : String) : Bool × Option Nat :=
  let content_lower := pyLower content.data
  if miyamasoUnavailableMarkers.any (fun m => containsSub m.data content_lower) then
    (false, none)
  else
    let (price, is_available) := miyamasoPriceLoop miyamasoPricePatterns content.data
    let is_available :=
      if !is_available then
        miyamasoAvailableMarkers.any (fun m =>
          containsSub m.data content_lower &&
          (buttonPatterns m).any (fun p => reTest true p content.data))
      else is_available
    (is_available, price)

/-! ### Timestamps: `datetime.isoformat` / `datetime.fromisoformat`

`datetime` values are abstracted to integer ticks (seconds).  `isoformat` is
modelled as an injective decimal rendering of the tick value and
`fromisoformat` as its partial inverse: it recovers the tick value of any
string produced by `isoformat` and fails — Python raises `ValueError` — on
strings that are no such rendering (such as the non-timestamp strings used in
the claims about corrupt state files). -/

/-- Fuel-bounded decimal rendering (structural recursion so that concrete
values reduce inside the kernel; `natChars` supplies enough fuel). -/
def natCharsAux : Nat → Nat → List Char
  | 0, _ => []
  | fuel + 1, n =>
    if n = 0 then [] else natCharsAux fuel (n / 10) ++ [Nat.digitChar (n % 10)]

/-- Decimal character rendering of a natural number (empty for `0`;
`isoformat` output is never empty in Python, but the model only needs the
rendering to be injective with a computable partial inverse). -/
def natChars (n : Nat) : List Char := natCharsAux n n

/-- Model of `datetime.isoformat` on abstract integer ticks. -/
def isoformat (t : Int) : String :=
  match t with
  | .ofNat n => ⟨natChars n⟩
  | .negSucc n => ⟨'-' :: natChars (n + 1)⟩

/-- Model of `datetime.fromisoformat` on abstract integer ticks: `none` is
Python's `ValueError`. -/
def fromisoformatOpt (s : String) : Option Int :=
  match s.data with
  | '-' :: rest => (parseDigits rest).map (fun ds => -((Nat.ofDigits 10 ds.reverse : Nat) : Int))
  | cs => (parseDigits cs).map (fun ds => ((Nat.ofDigits 10 ds.reverse : Nat) : Int))

/-! ### Domain model: properties, rooms, dates, availability facts

From `ryokan_check/domain/property.py` and `ryokan_check/domain/models.py`. -/

/-- The `Property` enum. -/
inductive PropertyId : Type
  | MIYAKOWASURE | MIYAMASO
deriving DecidableEq

/-- Enum `value`. -/
def PropertyId.value : PropertyId → String
  | .MIYAKOWASURE => "miyakowasure"
  | .MIYAMASO => "miyamaso"

/-- A room reference as the `RoomInfo` protocol sees it: one of the two
concrete room enums. -/
inductive RoomInfo : Type
  | mw (r : MiyakowasureRoom)
  | mm (r : MiyamasoRoom)
deriving DecidableEq

/-- The `room_id` capability of `RoomInfo` (the enum `value`). -/
def RoomInfo.room_id : RoomInfo → String
  | .mw r => r.value
  | .mm r => r.value

/-- A `datetime.date`: Python guarantees `1 ≤ year ≤ 9999`, `1 ≤ month ≤ 12`,
`1 ≤ day ≤ 31`. -/
structure PyDate : Type where
  year : Nat
  month : Nat
  day : Nat
deriving DecidableEq

/-- The invariants Python's `datetime.date` constructor enforces (days are
bounded per month; `≤ 31` is all that is needed here). -/
def PyDate.Valid (d : PyDate) : Prop :=
  1 ≤ d.year ∧ d.year ≤ 9999 ∧ 1 ≤ d.month ∧ d.month ≤ 12 ∧ 1 ≤ d.day ∧ d.day ≤ 31

instance (d : PyDate) : Decidable d.Valid := by
  unfold PyDate.Valid
  infer_instance

/-- Zero-padded two-digit rendering (`%02d` for valid month/day values). -/
def pad2 (n : Nat) : List Char := [Nat.digitChar (n / 10 % 10), Nat.digitChar (n % 10)]

/-- Zero-padded four-digit rendering (`%04d` for valid year values). -/
def pad4 (n : Nat) : List Char :=
  [Nat.digitChar (n / 1000 % 10), Nat.digitChar (n / 100 % 10),
   Nat.digitChar (n / 10 % 10), Nat.digitChar (n % 10)]

/-- `date.isoformat()` / `str(date)`: `YYYY-MM-DD`. -/
def PyDate.iso (d : PyDate) : String :=
  ⟨pad4 d.year ++ '-' :: pad2 d.month ++ '-' :: pad2 d.day⟩

/-- `RoomAvailability` (`ryokan_check/domain/models.py`). -/
structure RoomAvailability : Type where
  property : PropertyId
  room : RoomInfo
  check_in : PyDate
  check_out : PyDate
  available : Bool
  price_per_person : Option Nat := none
  spots_left : Option Nat := none
deriving DecidableEq

/-! ### Notification state store

From `ryokan_check/state.py`, `NotificationState` (the single-property
`miyakowasure_check/state.py` differs only in the key shape, which omits the
property prefix).  The in-memory `notified` dict is an insertion-ordered
association list from composite key to ISO timestamp string; the state file
is parsed JSON content.  Python exceptions that the code does not catch are
surfaced through `Except`. -/

/-- The Python exceptions relevant to the state store. -/
inductive PyErr : Type
  | valueError | typeError | attributeError
deriving DecidableEq

/-- Parsed JSON values (`json.loads` output shapes). -/
inductive JVal : Type
  | jnull : JVal
  | jbool (b : Bool) : JVal
  | jnum (n : Int) : JVal
  | jstr (s : String) : JVal
  | jarr (xs : List JVal) : JVal
  | jobj (fields : List (String × JVal)) : JVal

/-- The state file as `load` observes it: absent, unparsable
(`json.JSONDecodeError`), or parsed JSON content. -/
inductive FileContent : Type
  | missing : FileContent
  | invalidJson : FileContent
  | json (v : JVal) : FileContent

/-- `NotificationState` (the `state_file` path is represented separately as
the `FileContent` the operations read and write). -/
structure NotificationState : Type where
  notified : List (String × String)
  cooldown_hours : Int := 24
deriving DecidableEq

/-- Python dict lookup (`key in d` / `d[key]`). -/
def dictGet (key : String) (d : List (String × String)) : Option String :=
  (d.find? (fun p => p.1 == key)).map (fun p => p.2)

/-- Python dict assignment `d[key] = v`: overwrite in place, or append. -/
def dictSet (key v : String) (d : List (String × String)) : List (String × String) :=
  if (d.find? (fun p => p.1 == key)).isSome then
    d.map (fun p => if p.1 == key then (key, v) else p)
  else d ++ [(key, v)]

/-- `NotificationState._make_key`:
`f"{room.property.value}:{room.room.room_id}:{room.check_in}:{room.check_out}"`
(f-string interpolation of a `date` is its ISO form). -/
def make_key (room : RoomAvailability) : String :=
  room.property.value ++ ":" ++ room.room.room_id ++ ":" ++
    room.check_in.iso ++ ":" ++ room.check_out.iso

/-- The dict comprehension of `_cleanup_expired` over string-valued entries:
keep entries with `datetime.fromisoformat(v) > cutoff`; a value that fails to
parse raises `ValueError` (uncaught by `_cleanup_expired`'s callers). -/
def cleanupVals : List (String × String) → Int → Except PyErr (List (String × String))
  | [], _ => .ok []
  | (k, v) :: rest, cutoff =>
    match fromisoformatOpt v with
    | none => .error .valueError
    | some t =>
      (cleanupVals rest cutoff).map (fun tail => if t > cutoff then (k, v) :: tail else tail)

/-- The same comprehension applied to the raw JSON object `load` assigns to
`self.notified`: a non-string value makes `fromisoformat` raise `TypeError`. -/
def cleanupJson : List (String × JVal) → Int → Except PyErr (List (String × String))
  | [], _ => .ok []
  | (k, .jstr v) :: rest, cutoff =>
    match fromisoformatOpt v with
    | none => .error .valueError
    | some t =>
      (cleanupJson rest cutoff).map (fun tail => if t > cutoff then (k, v) :: tail else tail)
  | (_, _) :: _, _ => .error .typeError

/-- JSON object field lookup (`data.get(key, default)` with the default
handled by the caller). -/
def jGet (key : String) (fields : List (String × JVal)) : Option JVal :=
  (fields.find? (fun p => p.1 == key)).map (fun p => p.2)

/-- `NotificationState.load`, returning the new `notified` mapping:

    if self.state_file.exists():
        try:
            data = json.loads(self.state_file.read_text())
            self.notified = data.get("notified", {})
            self._cleanup_expired()
        except (json.JSONDecodeError, KeyError):
            self.notified = {}

A missing file leaves `notified` untouched; undecodable content is caught and
resets it to empty; JSON content that is not an object raises
`AttributeError` from `data.get`, a `"notified"` value that is not an object
raises `AttributeError` from `.items()`, and entries that are not ISO
timestamp strings raise `TypeError`/`ValueError` from `fromisoformat` — none
of these are caught (`KeyError` cannot occur here). -/
def load (file : FileContent) (st : NotificationState) (now : Int) :
    Except PyErr (List (String × String)) :=
  match file with
  | .missing => .ok st.notified
  | .invalidJson => .ok []
  | .json v =>
    match v with
    | .jobj fields =>
      match jGet "notified" fields with
      | none => cleanupJson [] (now - 3600 * st.cooldown_hours)
      | some (.jobj entries) => cleanupJson entries (now - 3600 * st.cooldown_hours)
      | some _ => .error .attributeError
    | _ => .error .attributeError

/-- `NotificationState.save`: `_cleanup_expired`, then write
`json.dumps({"notified": self.notified})`.  Returns the state after the
cleanup sweep and the file content written. -/
def save (st : NotificationState) (now : Int) :
    Except PyErr (NotificationState × FileContent) :=
  (cleanupVals st.notified (now - 3600 * st.cooldown_hours)).map (fun cleaned =>
    (⟨cleaned, st.cooldown_hours⟩,
     .json (.jobj [("notified", .jobj (cleaned.map (fun p => (p.1, .jstr p.2))))])))

/-- `NotificationState.should_notify`: true if the key is absent or its
timestamp is older than `cooldown_hours`. -/
def should_notify (st : NotificationState) (now : Int) (room : RoomAvailability) :
    Except PyErr Bool :=
  match dictGet (make_key room) st.notified with
  | none => .ok true
  | some v =>
    match fromisoformatOpt v with
    | none => .error .valueError
    | some last_notified => .ok (now - last_notified > 3600 * st.cooldown_hours)

/-- `NotificationState.mark_notified`: set the key to `now.isoformat()` and
`save` immediately. -/
def mark_notified (st : NotificationState) (now : Int) (room : RoomAvailability) :
    Except PyErr (NotificationState × FileContent) :=
  save ⟨dictSet (make_key room) (isoformat now) st.notified, st.cooldown_hours⟩ now

/-- `should_notify` as a state transformer over the in-memory store and the
on-disk file, mirroring the method body statement by statement: the body only
reads (`_make_key`, dict membership, dict lookup, `fromisoformat`,
`datetime.now`), so every return site passes the store and file through. -/
def should_notify_step (st : NotificationState) (file : FileContent) (now : Int)
    (room : RoomAvailability) :
    Except PyErr Bool × NotificationState × FileContent :=
  match dictGet (make_key room) st.notified with
  | none => (.ok true, st, file)
  | some v =>
    match fromisoformatOpt v with
    | none => (.error .valueError, st, file)
    | some last_notified => (.ok (now - last_notified > 3600 * st.cooldown_hours), st, file)

/-- The predicate `_cleanup_expired` keeps: the value parses and is strictly
newer than the cutoff. -/
def keepEntry (cutoff : Int) (p : String × String) : Bool :=
  match fromisoformatOpt p.2 with
  | some t => decide (t > cutoff)
  | none => false


/-! ### Helper lemmas: the timestamp rendering -/

theorem natCharsAux_eq_digits (fuel : Nat) :
    ∀ n : Nat, n ≤ fuel → natCharsAux fuel n = ((Nat.digits 10 n).map Nat.digitChar).reverse := by
  induction fuel with
  | zero =>
    intro n hn
    interval_cases n
    simp [natCharsAux]
  | succ fuel ih =>
    intro n hn
    by_cases hz : n = 0
    · subst hz
      simp [natCharsAux]
    · have hpos : 0 < n := Nat.pos_of_ne_zero hz
      have hdiv : n / 10 ≤ fuel := by
        have := Nat.div_lt_self hpos (by norm_num : 1 < 10)
        omega
      rw [show natCharsAux (fuel + 1) n
            = natCharsAux fuel (n / 10) ++ [Nat.digitChar (n % 10)] by
          simp [natCharsAux, hz]]
      rw [ih (n / 10) hdiv, Nat.digits_def' (by norm_num : 1 < 10) hpos]
      simp

theorem natChars_eq_digits (n : Nat) :
    natChars n = ((Nat.digits 10 n).map Nat.digitChar).reverse :=
  natCharsAux_eq_digits n n le_rfl

theorem charToDigit_digitChar {d : Nat} (hd : d < 10) :
    charToDigit (Nat.digitChar d) = some d := by
  interval_cases d <;> rfl

theorem digitChar_ne_minus {d : Nat} (hd : d < 10) : Nat.digitChar d ≠ '-' := by
  interval_cases d <;> decide

theorem parseDigits_map_digitChar {l : List Nat} (hl : ∀ d ∈ l, d < 10) :
    parseDigits (l.map Nat.digitChar) = some l := by
  induction l with
  | nil => rfl
  | cons d l ih =>
    have hd : d < 10 := hl d (List.mem_cons_self d l)
    have hrest : ∀ x ∈ l, x < 10 := fun x hx => hl x (List.mem_cons_of_mem d hx)
    simp only [List.map_cons, parseDigits, charToDigit_digitChar hd, ih hrest]

theorem parseDigits_natChars (n : Nat) :
    parseDigits (natChars n) = some ((Nat.digits 10 n).reverse) := by
  have hlt : ∀ d ∈ (Nat.digits 10 n).reverse, d < 10 := by
    intro d hd
    exact Nat.digits_lt_base (by norm_num) (List.mem_reverse.mp hd)
  have : natChars n = ((Nat.digits 10 n).reverse).map Nat.digitChar := by
    simp [natChars_eq_digits, List.map_reverse]
  rw [this, parseDigits_map_digitChar hlt]

theorem fromisoformatOpt_no_minus (cs : List Char) (h : ∀ c ∈ cs, c ≠ '-') :
    fromisoformatOpt ⟨cs⟩ =
      (parseDigits cs).map (fun ds => ((Nat.ofDigits 10 ds.reverse : Nat) : Int)) := by
  unfold fromisoformatOpt
  cases cs with
  | nil => rfl
  | cons c rest =>
    split
    · rename_i heq
      exact absurd (List.head_eq_of_cons_eq heq.symm).symm (h c (List.mem_cons_self c rest))
    · rfl

/-- The timestamp rendering round-trips: `fromisoformat (isoformat t) = t`. -/
theorem fromisoformat_isoformat (t : Int) : fromisoformatOpt (isoformat t) = some t := by
  cases t with
  | ofNat n =>
    have hnotminus : ∀ c ∈ natChars n, c ≠ '-' := by
      intro c hc
      rw [natChars_eq_digits] at hc
      simp only [List.mem_reverse, List.mem_map] at hc
      obtain ⟨d, hd, rfl⟩ := hc
      exact digitChar_ne_minus (Nat.digits_lt_base (by norm_num) hd)
    show fromisoformatOpt ⟨natChars n⟩ = some (Int.ofNat n)
    rw [fromisoformatOpt_no_minus _ hnotminus, parseDigits_natChars]
    simp only [Option.map_some', List.reverse_reverse]
    rw [Nat.ofDigits_digits]
    rfl
  | negSucc n =>
    show fromisoformatOpt ⟨'-' :: natChars (n + 1)⟩ = some (Int.negSucc n)
    have hstep : fromisoformatOpt ⟨'-' :: natChars (n + 1)⟩
        = (parseDigits (natChars (n + 1))).map
            (fun ds => -((Nat.ofDigits 10 ds.reverse : Nat) : Int)) := rfl
    rw [hstep, parseDigits_natChars]
    simp only [Option.map_some', List.reverse_reverse]
    rw [Nat.ofDigits_digits]
    congr 1

/-! ### Helper lemmas: substring tests and lowering -/

theorem startsWithChars_map_toLower {n h : List Char}
    (hs : startsWithChars n h = true) :
    startsWithChars (pyLower n) (pyLower h) = true := by
  induction n generalizing h with
  | nil => rfl
  | cons c cs ih =>
    cases h with
    | nil => simp [startsWithChars] at hs
    | cons x xs =>
      simp only [startsWithChars, Bool.and_eq_true, beq_iff_eq] at hs
      obtain ⟨rfl, htail⟩ := hs
      simpa [pyLower, startsWithChars] using ih htail

theorem containsSub_map_toLower {n h : List Char}
    (hc : containsSub n h = true) :
    containsSub (pyLower n) (pyLower h) = true := by
  induction h with
  | nil =>
    simp only [containsSub] at hc ⊢
    simp only [List.isEmpty_iff] at hc ⊢
    simp [hc, pyLower]
  | cons x xs ih =>
    simp only [containsSub, Bool.or_eq_true] at hc
    rcases hc with hs | htail
    · have := startsWithChars_map_toLower hs
      simp only [pyLower, List.map_cons] at this ⊢
      simp [containsSub, this]
    · simp only [pyLower, List.map_cons, containsSub, Bool.or_eq_true]
      right
      exact ih htail

/-! ### Helper lemmas: the Miyamaso parser -/

theorem miyamasoPriceLoop_band (ps : List RE) (content : List Char) :
    (miyamasoPriceLoop ps content).1 = none ∨
      ∃ v, miyamasoPriceLoop ps content = (some v, true) ∧ 15000 ≤ v ∧ v ≤ 150000 := by
  induction ps with
  | nil => left; rfl
  | cons q rest ih =>
    rcases hs : reSearch true q content with _ | g
    · simpa only [miyamasoPriceLoop, hs] using ih
    · rcases hg : group1 g with _ | cs
      · simpa only [miyamasoPriceLoop, hs, hg] using ih
      · rcases hv : pyInt (stripCommas cs) with _ | v
        · simpa only [miyamasoPriceLoop, hs, hg, hv] using ih
        · by_cases hband : 15000 ≤ v ∧ v ≤ 150000
          · right
            exact ⟨v, by simp only [miyamasoPriceLoop, hs, hg, hv, if_pos hband], hband⟩
          · simpa only [miyamasoPriceLoop, hs, hg, hv, if_neg hband] using ih

theorem parseRoomPage_price_band (content : String) (p : Nat)
    (h : (parseRoomPage content).2 = some p) : 15000 ≤ p ∧ p ≤ 150000 := by
  unfold parseRoomPage at h
  by_cases hm :
      (miyamasoUnavailableMarkers.any
        (fun m => containsSub m.data (pyLower content.data))) = true
  · rw [if_pos hm] at h
    simp at h
  · rw [if_neg hm] at h
    rcases hloop : miyamasoPriceLoop miyamasoPricePatterns content.data with ⟨price, avail⟩
    rcases miyamasoPriceLoop_band miyamasoPricePatterns content.data with hnone | ⟨v, hv, hband⟩
    · rw [hloop] at hnone h
      simp only at hnone h
      rw [hnone] at h
      simp at h
    · rw [hv] at h
      simp only [Option.some.injEq] at h
      exact h ▸ hband

theorem parseRoomPage_unavailable_marker (content : String) (m : String)
    (hmem : m ∈ miyamasoUnavailableMarkers)
    (hsub : containsSub m.data (pyLower content.data) = true) :
    parseRoomPage content = (false, none) := by
  unfold parseRoomPage
  rw [if_pos (List.any_eq_true.mpr ⟨m, hmem, hsub⟩)]

/-! ### Helper lemmas: the Yadosys parser's presence check -/

theorem checkRoomAvailability_absent (content : String) (room : MiyakowasureRoom)
    (hname : containsSub (pyLower room.display_name.data) (pyLower content.data) = false)
    (hid : containsSub (pyLower room.value.data) (pyLower content.data) = false) :
    checkRoomAvailability content room = (false, none, none) := by
  have hid' : containsSub room.value.data content.data = false := by
    by_contra hcontra
    rw [Bool.not_eq_false] at hcontra
    rw [containsSub_map_toLower hcontra] at hid
    exact absurd hid (by simp)
  unfold checkRoomAvailability
  rw [if_neg]
  rw [Bool.or_eq_true]
  push_neg
  exact ⟨by simp [hname], by simp [hid']⟩

/-! ### Helper lemmas: alias tables -/

theorem aliasGet_mem_keys {α : Type} (table : List (String × α)) (n : String)
    (h : (aliasGet table n).isSome) : n ∈ table.map Prod.fst := by
  unfold aliasGet at h
  cases hf : table.find? (fun p => p.1 == n) with
  | none => rw [hf] at h; simp at h
  | some pr =>
    have hmem := List.mem_of_find?_eq_some hf
    have hpred := List.find?_some hf
    simp only [beq_iff_eq] at hpred
    subst hpred
    exact List.mem_map_of_mem Prod.fst hmem

/-- Claim C8: cross-catalog isolation — a string that resolves under one
property's catalog resolves to not-found under the other's, and unknown
strings return not-found (both `from_string` functions are total). -/
theorem C8_cross_catalog_isolation (s : String) :
    ((MiyakowasureRoom.from_string s).isSome → MiyamasoRoom.from_string s = none) ∧
    ((MiyamasoRoom.from_string s).isSome → MiyakowasureRoom.from_string s = none) := by
  constructor
  · intro h
    have hmem := aliasGet_mem_keys miyakowasureAliases (pyNormalize s) h
    show aliasGet miyamasoAliases (pyNormalize s) = none
    simp only [miyakowasureAliases, List.map_cons, List.map_nil] at hmem
    generalize pyNormalize s = n at hmem ⊢
    simp only [List.mem_cons, List.not_mem_nil, or_false] at hmem
    rcases hmem with rfl|rfl|rfl|rfl|rfl|rfl|rfl|rfl|rfl|rfl|rfl|rfl|rfl|rfl|rfl|rfl|rfl <;> decide
  · intro h
    have hmem := aliasGet_mem_keys miyamasoAliases (pyNormalize s) h
    show aliasGet miyakowasureAliases (pyNormalize s) = none
    simp only [miyamasoAliases, List.map_cons, List.map_nil] at hmem
    generalize pyNormalize s = n at hmem ⊢
    simp only [List.mem_cons, List.not_mem_nil, or_false] at hmem
    rcases hmem with rfl|rfl|rfl|rfl|rfl|rfl|rfl|rfl|rfl|rfl|rfl|rfl|rfl <;> decide

/-- Witness for C8 at the aliases named by the claim: `"hinakura"` resolves
under the Miyamaso catalog and to not-found under the Miyakowasure catalog. -/
theorem C8_witness :
    (MiyamasoRoom.from_string "hinakura").isSome = true ∧
    MiyakowasureRoom.from_string "hinakura" = none :=
  ⟨by decide, (C8_cross_catalog_isolation "hinakura").2 (by decide)⟩

/-- Claim C9: `parse_multiple` on the bare Rian aliases returns exactly the
two Rian Sansui variants; `"hinakura"` returns exactly one element; any input
not normalising to a bare Rian alias returns at most one element. -/
theorem C9_parse_multiple :
    MiyamasoRoom.parse_multiple "rian"
        = [.RIAN_SANSUI_MAISONETTE, .RIAN_SANSUI_JAPANESE] ∧
    MiyamasoRoom.parse_multiple "rian-sansui"
        = [.RIAN_SANSUI_MAISONETTE, .RIAN_SANSUI_JAPANESE] ∧
    MiyamasoRoom.parse_multiple "rian_sansui"
        = [.RIAN_SANSUI_MAISONETTE, .RIAN_SANSUI_JAPANESE] ∧
    MiyamasoRoom.parse_multiple "sansui"
        = [.RIAN_SANSUI_MAISONETTE, .RIAN_SANSUI_JAPANESE] ∧
    MiyamasoRoom.parse_multiple "hinakura" = [.HINAKURA] ∧
    ∀ s : String,
      ¬(pyNormalize s = "rian" ∨ pyNormalize s = "rian-sansui" ∨
        pyNormalize s = "rian_sansui" ∨ pyNormalize s = "sansui") →
      (MiyamasoRoom.parse_multiple s).length ≤ 1 := by
  refine ⟨by decide, by decide, by decide, by decide, by decide, ?_⟩
  intro s hs
  unfold MiyamasoRoom.parse_multiple
  rw [if_neg hs]
  cases MiyamasoRoom.from_string (pyNormalize s) <;> simp

/-- Witness for C9 at `"villa"`, which is not a bare Rian alias and yields a
single-element result. -/
theorem C9_witness :
    ¬(pyNormalize "villa" = "rian" ∨ pyNormalize "villa" = "rian-sansui" ∨
      pyNormalize "villa" = "rian_sansui" ∨ pyNormalize "villa" = "sansui") ∧
    (MiyamasoRoom.parse_multiple "villa").length ≤ 1 :=
  ⟨by decide, C9_parse_multiple.2.2.2.2.2 "villa" (by decide)⟩

/-- Counterexample to claim C1: in the Yadosys strategy, content holding both
an unavailability marker textually near the room name (`満室`) and a price in
the plausible band (¥20,000) is reported AVAILABLE — the price-implied
fallback runs after the marker scan and overrides it. -/
theorem C1_counterexample :
    (yadosysUnavailableMarkers.any (fun m =>
        reTest true (markerWindowRE (MiyakowasureRoom.display_name .MOMIJI_VIP) m)
          "MOMIJI-KAN VIP ROOM 満室 ¥20,000".data)) = true ∧
    checkRoomAvailability "MOMIJI-KAN VIP ROOM 満室 ¥20,000" .MOMIJI_VIP
      = (true, some 20000, none) := by decide

/-- Claim C1 as amended: the unavailability marker takes precedence over the
price-implied fallback in the Miyamaso (BanScraper) strategy — for every
content, a marker match short-circuits to `(unavailable, no price)`; in the
Yadosys strategy the fallback instead overrides a matched marker whenever a
plausible price is extracted (the marker only suppresses the positive-marker
scan), as the concrete run shows. -/
theorem C1_marker_precedence :
    (∀ (content m : String), m ∈ miyamasoUnavailableMarkers →
        containsSub m.data (pyLower content.data) = true →
        parseRoomPage content = (false, none)) ∧
    checkRoomAvailability "MOMIJI-KAN VIP ROOM 満室 ¥20,000" .MOMIJI_VIP
      = (true, some 20000, none) :=
  ⟨fun content m hmem hsub => parseRoomPage_unavailable_marker content m hmem hsub,
   by decide⟩

/-- Witness for C1 at concrete content containing a marker and an in-band
price: the Miyamaso parser reports unavailable with no price. -/
theorem C1_witness :
    ("満室" ∈ miyamasoUnavailableMarkers ∧
      containsSub "満室".data (pyLower "満室 29,700 JPY".data) = true) ∧
    parseRoomPage "満室 29,700 JPY" = (false, none) :=
  ⟨⟨by decide, by decide⟩,
   C1_marker_precedence.1 "満室 29,700 JPY" "満室" (by decide) (by decide)⟩

/-- Counterexample to claim C3: in the Yadosys strategy an out-of-band match
is not discarded — `price = int(...)` is assigned before the band test, so
content whose only prices parse out of band (¥500) yields a returned price of
500, outside the 10,000–100,000 band. -/
theorem C3_counterexample :
    checkRoomAvailability "MOMIJI-KAN VIP ROOM ¥500" .MOMIJI_VIP
      = (false, some 500, none) ∧
    ¬(10000 ≤ 500 ∧ 500 ≤ 100000) := by decide

/-- Claim C3 as amended: in the Miyamaso strategy a returned price always
lies in the 15,000–150,000 band (out-of-band matches are discarded and the
next pattern is tried); in the Yadosys strategy an out-of-band match still
overwrites the price variable and can be returned when no later pattern
yields an in-band value — only the in-band acceptance and the move to the
next pattern are preserved there. -/
theorem C3_price_band :
    (∀ (content : String) (p : Nat), (parseRoomPage content).2 = some p →
        15000 ≤ p ∧ p ≤ 150000) ∧
    checkRoomAvailability "MOMIJI-KAN VIP ROOM ¥500" .MOMIJI_VIP
      = (false, some 500, none) :=
  ⟨fun content p h => parseRoomPage_price_band content p h, by decide⟩

/-- Witness for C3 at concrete content with an in-band price. -/
theorem C3_witness :
    (parseRoomPage "29,700 JPY").2 = some 29700 ∧ (15000 ≤ 29700 ∧ 29700 ≤ 150000) :=
  ⟨by decide, C3_price_band.1 "29,700 JPY" 29700 (by decide)⟩

/-- Counterexample to claim C6: the Miyamaso strategy performs no presence
check — content that contains neither the HINAKURA room's display name nor
its room id (case-insensitively) is still parsed as available with a price. -/
theorem C6_counterexample :
    parseRoomPage "29,700 JPY" = (true, some 29700) ∧
    containsSub (pyLower (MiyamasoRoom.display_name .HINAKURA).data)
        (pyLower "29,700 JPY".data) = false ∧
    containsSub (pyLower (MiyamasoRoom.value .HINAKURA).data)
        (pyLower "29,700 JPY".data) = false := by decide

/-- Claim C6 as amended: the presence check holds in the Yadosys strategy —
for every content and room, if neither the display name nor the room id
appears case-insensitively, the room is reported unavailable with no price
(and no spots count); the Miyamaso strategy performs no presence check at all
(its parser never sees the room and can report available with a price), as
the concrete run shows. -/
theorem C6_presence_check :
    (∀ (content : String) (room : MiyakowasureRoom),
        containsSub (pyLower room.display_name.data) (pyLower content.data) = false →
        containsSub (pyLower room.value.data) (pyLower content.data) = false →
        checkRoomAvailability content room = (false, none, none)) ∧
    parseRoomPage "29,700 JPY" = (true, some 29700) :=
  ⟨fun content room hname hid => checkRoomAvailability_absent content room hname hid,
   by decide⟩

/-- Witness for C6 at content mentioning no Miyakowasure room. -/
theorem C6_witness :
    (containsSub (pyLower (MiyakowasureRoom.display_name .MOMIJI_VIP).data)
        (pyLower "nothing to see".data) = false ∧
      containsSub (pyLower (MiyakowasureRoom.value .MOMIJI_VIP).data)
        (pyLower "nothing to see".data) = false) ∧
    checkRoomAvailability "nothing to see" .MOMIJI_VIP = (false, none, none) :=
  ⟨⟨by decide, by decide⟩,
   C6_presence_check.1 "nothing to see" .MOMIJI_VIP (by decide) (by decide)⟩

/-! ### Helper lemmas: cleanup sweep as a filter -/

theorem cleanupVals_eq_filter (cutoff : Int) :
    ∀ l : List (String × String), (∀ p ∈ l, (fromisoformatOpt p.2).isSome) →
    cleanupVals l cutoff = .ok (l.filter (keepEntry cutoff)) := by
  intro l
  induction l with
  | nil => intro _; rfl
  | cons a rest ih =>
    intro h
    obtain ⟨k, v⟩ := a
    obtain ⟨t, ht⟩ := Option.isSome_iff_exists.mp (h (k, v) (List.mem_cons_self _ _))
    have hrest := ih (fun p hp => h p (List.mem_cons_of_mem _ hp))
    simp only [cleanupVals, ht, hrest, Except.map, List.filter_cons]
    have hkeep : keepEntry cutoff (k, v) = decide (t > cutoff) := by
      simp [keepEntry, ht]
    rw [hkeep]
    by_cases hgt : t > cutoff
    · simp [hgt]
    · simp [hgt]

theorem cleanupJson_of_kept (cutoff : Int) :
    ∀ l : List (String × String),
      (∀ p ∈ l, ∃ t, fromisoformatOpt p.2 = some t ∧ t > cutoff) →
    cleanupJson (l.map (fun p => (p.1, .jstr p.2))) cutoff = .ok l := by
  intro l
  induction l with
  | nil => intro _; rfl
  | cons a rest ih =>
    intro h
    obtain ⟨k, v⟩ := a
    obtain ⟨t, ht, hgt⟩ := h (k, v) (List.mem_cons_self _ _)
    have hrest := ih (fun p hp => h p (List.mem_cons_of_mem _ hp))
    simp only [List.map_cons, cleanupJson, ht, hrest, Except.map]
    rw [if_pos hgt]

theorem keepEntry_of_mem_filter {cutoff : Int} {l : List (String × String)}
    {p : String × String} (hp : p ∈ l.filter (keepEntry cutoff)) :
    ∃ t, fromisoformatOpt p.2 = some t ∧ t > cutoff := by
  have hk := List.of_mem_filter hp
  unfold keepEntry at hk
  rcases hft : fromisoformatOpt p.2 with _ | t
  · rw [hft] at hk; simp at hk
  · rw [hft] at hk
    simp only [decide_eq_true_eq] at hk
    exact ⟨t, rfl, hk⟩

/-! ### Helper lemmas: dict lookup, assignment and the filter sweep -/

theorem find?_eq_none_of_not_mem_keys (key : String) :
    ∀ l : List (String × String), key ∉ l.map Prod.fst →
      l.find? (fun p => p.1 == key) = none := by
  intro l
  induction l with
  | nil => intro _; rfl
  | cons a rest ih =>
    intro h
    simp only [List.map_cons, List.mem_cons] at h
    push_neg at h
    have hne : (a.1 == key) = false := by
      simp only [beq_eq_false_iff_ne, ne_eq]
      exact fun he => h.1 he.symm
    simp only [List.find?_cons, hne]
    exact ih h.2

theorem mem_keys_of_find?_isSome (key : String) :
    ∀ l : List (String × String), (l.find? (fun p => p.1 == key)).isSome →
      key ∈ l.map Prod.fst := by
  intro l h
  cases hf : l.find? (fun p => p.1 == key) with
  | none => rw [hf] at h; simp at h
  | some pr =>
    have hmem := List.mem_of_find?_eq_some hf
    have hpred := List.find?_some hf
    simp only [beq_iff_eq] at hpred
    exact hpred ▸ List.mem_map_of_mem Prod.fst hmem

theorem find?_filter_keep (cutoff : Int) (key : String) :
    ∀ l : List (String × String), (l.map Prod.fst).Nodup →
    (l.filter (keepEntry cutoff)).find? (fun p => p.1 == key)
      = (l.find? (fun p => p.1 == key)).bind
          (fun p => if keepEntry cutoff p then some p else none) := by
  intro l
  induction l with
  | nil => intro _; rfl
  | cons a rest ih =>
    intro hnd
    simp only [List.map_cons, List.nodup_cons] at hnd
    obtain ⟨hnotmem, hndrest⟩ := hnd
    by_cases hkey : (a.1 == key) = true
    · have hkeyeq : a.1 = key := by simpa [beq_iff_eq] using hkey
      by_cases hkeep : keepEntry cutoff a = true
      · simp only [List.filter_cons, hkeep, if_pos, List.find?_cons, hkey]
        simp [hkeep]
      · have hkeepf : keepEntry cutoff a = false := by
          simpa [Bool.not_eq_true] using hkeep
        simp only [List.filter_cons, hkeepf, Bool.false_eq_true, if_neg,
          List.find?_cons, hkey]
        have hnone : (rest.filter (keepEntry cutoff)).find? (fun p => p.1 == key)
            = none := by
          apply find?_eq_none_of_not_mem_keys
          intro hmemf
          apply hnotmem
          rw [← hkeyeq] at hmemf
          simp only [List.mem_map] at hmemf ⊢
          obtain ⟨p, hp, hfst⟩ := hmemf
          exact ⟨p, List.mem_of_mem_filter hp, hfst⟩
        simp [hnone, hkeepf]
    · have hkeyf : (a.1 == key) = false := by
        simpa [Bool.not_eq_true] using hkey
      by_cases hkeep : keepEntry cutoff a = true
      · simp only [List.filter_cons, hkeep, if_pos, List.find?_cons, hkeyf]
        exact ih hndrest
      · have hkeepf : keepEntry cutoff a = false := by
          simpa [Bool.not_eq_true] using hkeep
        simp only [List.filter_cons, hkeepf, Bool.false_eq_true, if_neg,
          List.find?_cons, hkeyf]
        exact ih hndrest

theorem find?_map_overwrite (k1 v k2 : String) (hne : k1 ≠ k2) :
    ∀ l : List (String × String),
      (l.map (fun p => if p.1 == k1 then (k1, v) else p)).find? (fun p => p.1 == k2)
        = l.find? (fun p => p.1 == k2) := by
  intro l
  induction l with
  | nil => rfl
  | cons a rest ih =>
    rw [List.map_cons]
    by_cases ha : (a.1 == k1) = true
    · have haeq : a.1 = k1 := by simpa [beq_iff_eq] using ha
      rw [if_pos ha]
      have hk2a : ¬((a.1 == k2) = true) := by
        simp only [beq_iff_eq, haeq]
        exact hne
      have hk2new : ¬(((k1, v).1 == k2) = true) := by
        simp only [beq_iff_eq]
        exact hne
      rw [List.find?_cons_of_neg (p := fun (q : String × String) => q.1 == k2) _ hk2new, List.find?_cons_of_neg (p := fun (q : String × String) => q.1 == k2) _ hk2a]
      exact ih
    · rw [if_neg ha]
      by_cases h2 : (a.1 == k2) = true
      · rw [List.find?_cons_of_pos (p := fun (q : String × String) => q.1 == k2) _ h2,
          List.find?_cons_of_pos (p := fun (q : String × String) => q.1 == k2) _ h2]
      · rw [List.find?_cons_of_neg (p := fun (q : String × String) => q.1 == k2) _ h2,
          List.find?_cons_of_neg (p := fun (q : String × String) => q.1 == k2) _ h2]
        exact ih

theorem find?_append_singleton_ne (k1 v k2 : String) (hne : k1 ≠ k2) :
    ∀ l : List (String × String),
      (l ++ [(k1, v)]).find? (fun p => p.1 == k2) = l.find? (fun p => p.1 == k2) := by
  intro l
  induction l with
  | nil =>
    rw [List.nil_append]
    apply List.find?_cons_of_neg
    simp only [beq_iff_eq]
    exact hne
  | cons a rest ih =>
    rw [List.cons_append]
    by_cases h2 : (a.1 == k2) = true
    · rw [List.find?_cons_of_pos (p := fun (q : String × String) => q.1 == k2) _ h2,
        List.find?_cons_of_pos (p := fun (q : String × String) => q.1 == k2) _ h2]
    · rw [List.find?_cons_of_neg (p := fun (q : String × String) => q.1 == k2) _ h2,
        List.find?_cons_of_neg (p := fun (q : String × String) => q.1 == k2) _ h2]
      exact ih

theorem find?_dictSet_ne (k1 v k2 : String) (hne : k1 ≠ k2)
    (l : List (String × String)) :
    (dictSet k1 v l).find? (fun p => p.1 == k2) = l.find? (fun p => p.1 == k2) := by
  unfold dictSet
  by_cases hf : (l.find? (fun p => p.1 == k1)).isSome
  · rw [if_pos hf]
    exact find?_map_overwrite k1 v k2 hne l
  · rw [if_neg hf]
    exact find?_append_singleton_ne k1 v k2 hne l

theorem keys_map_overwrite (k1 v : String) :
    ∀ l : List (String × String),
      (l.map (fun p => if p.1 == k1 then (k1, v) else p)).map Prod.fst
        = l.map Prod.fst := by
  intro l
  induction l with
  | nil => rfl
  | cons a rest ih =>
    rw [List.map_cons, List.map_cons, List.map_cons]
    by_cases ha : (a.1 == k1) = true
    · have haeq : a.1 = k1 := by simpa [beq_iff_eq] using ha
      rw [if_pos ha]
      rw [show ((k1, v).1 : String) = a.1 from haeq.symm]
      exact congrArg (a.1 :: ·) ih
    · rw [if_neg ha]
      exact congrArg (a.1 :: ·) ih

theorem find?_isSome_of_mem_keys (key : String) :
    ∀ l : List (String × String), key ∈ l.map Prod.fst →
      (l.find? (fun p => p.1 == key)).isSome := by
  intro l
  induction l with
  | nil => intro h; simp at h
  | cons a rest ih =>
    intro hmem
    by_cases ha : (a.1 == key) = true
    · rw [List.find?_cons_of_pos (p := fun (q : String × String) => q.1 == key) _ ha]
      rfl
    · rw [List.find?_cons_of_neg (p := fun (q : String × String) => q.1 == key) _ ha]
      apply ih
      simp only [List.map_cons, List.mem_cons] at hmem
      rcases hmem with heq | hmem
      · exact absurd (by simp [heq]) ha
      · exact hmem

theorem nodup_keys_dictSet (k1 v : String) (l : List (String × String))
    (h : (l.map Prod.fst).Nodup) : ((dictSet k1 v l).map Prod.fst).Nodup := by
  unfold dictSet
  by_cases hf : (l.find? (fun p => p.1 == k1)).isSome
  · rw [if_pos hf, keys_map_overwrite]
    exact h
  · rw [if_neg hf, List.map_append]
    rw [List.nodup_append]
    refine ⟨h, List.nodup_singleton _, ?_⟩
    intro x hx hx1
    simp only [List.map_cons, List.map_nil, List.mem_singleton] at hx1
    exact hf (find?_isSome_of_mem_keys _ l (hx1 ▸ hx))

/-! ### Helper lemmas: injectivity of the composite state key -/

theorem colon_split {b d : List Char} :
    ∀ {a c : List Char}, ':' ∉ a → ':' ∉ c →
      a ++ ':' :: b = c ++ ':' :: d → a = c ∧ b = d := by
  intro a
  induction a with
  | nil =>
    intro c ha hc h
    cases c with
    | nil => simpa using h
    | cons x xs =>
      rw [List.nil_append, List.cons_append] at h
      have hx : x = ':' := (List.head_eq_of_cons_eq h).symm
      exact absurd (hx ▸ List.mem_cons_self x xs) hc
  | cons y ys ih =>
    intro c ha hc h
    cases c with
    | nil =>
      rw [List.nil_append, List.cons_append] at h
      have hy : y = ':' := List.head_eq_of_cons_eq h
      exact absurd (hy ▸ List.mem_cons_self y ys) ha
    | cons x xs =>
      rw [List.cons_append, List.cons_append] at h
      have hhead : y = x := List.head_eq_of_cons_eq h
      have htail := List.tail_eq_of_cons_eq h
      have ha' : ':' ∉ ys := fun hmem => ha (List.mem_cons_of_mem _ hmem)
      have hc' : ':' ∉ xs := fun hmem => hc (List.mem_cons_of_mem _ hmem)
      obtain ⟨h1, h2⟩ := ih ha' hc' htail
      exact ⟨by rw [hhead, h1], h2⟩

theorem digitChar_lt_inj : ∀ x y : Fin 10,
    Nat.digitChar x.val = Nat.digitChar y.val → x = y := by decide

theorem digitChar_mod10_inj {a b : Nat} (h : Nat.digitChar (a % 10) = Nat.digitChar (b % 10)) :
    a % 10 = b % 10 := by
  have ha : a % 10 < 10 := Nat.mod_lt _ (by norm_num)
  have hb : b % 10 < 10 := Nat.mod_lt _ (by norm_num)
  have := digitChar_lt_inj ⟨a % 10, ha⟩ ⟨b % 10, hb⟩ h
  exact Fin.val_eq_val _ _ |>.mpr this

theorem digitChar_mod10_ne_colon (k : Nat) : Nat.digitChar (k % 10) ≠ ':' := by
  have hk : k % 10 < 10 := Nat.mod_lt _ (by norm_num)
  have : ∀ x : Fin 10, Nat.digitChar x.val ≠ ':' := by decide
  exact this ⟨k % 10, hk⟩

theorem colon_not_mem_pad2 (n : Nat) : ':' ∉ pad2 n := by
  intro h
  simp only [pad2, List.mem_cons, List.not_mem_nil, or_false] at h
  rcases h with h | h
  · exact digitChar_mod10_ne_colon (n / 10) h.symm
  · exact digitChar_mod10_ne_colon n h.symm

theorem colon_not_mem_pad4 (n : Nat) : ':' ∉ pad4 n := by
  intro h
  simp only [pad4, List.mem_cons, List.not_mem_nil, or_false] at h
  rcases h with h | h | h | h
  · exact digitChar_mod10_ne_colon (n / 1000) h.symm
  · exact digitChar_mod10_ne_colon (n / 100) h.symm
  · exact digitChar_mod10_ne_colon (n / 10) h.symm
  · exact digitChar_mod10_ne_colon n h.symm

theorem pad2_inj {a b : Nat} (ha : a ≤ 99) (hb : b ≤ 99) (h : pad2 a = pad2 b) : a = b := by
  simp only [pad2, List.cons.injEq, and_true] at h
  obtain ⟨h1, h2⟩ := h
  have e1 := digitChar_mod10_inj h1
  have e2 := digitChar_mod10_inj h2
  omega

theorem pad4_inj {a b : Nat} (ha : a ≤ 9999) (hb : b ≤ 9999) (h : pad4 a = pad4 b) :
    a = b := by
  simp only [pad4, List.cons.injEq, and_true] at h
  obtain ⟨h1, h2, h3, h4⟩ := h
  have e1 := digitChar_mod10_inj h1
  have e2 := digitChar_mod10_inj h2
  have e3 := digitChar_mod10_inj h3
  have e4 := digitChar_mod10_inj h4
  omega

theorem colon_not_mem_iso (d : PyDate) : ':' ∉ d.iso.data := by
  intro h
  have hshape : d.iso.data
      = (pad4 d.year ++ '-' :: pad2 d.month) ++ '-' :: pad2 d.day := rfl
  rw [hshape] at h
  rcases List.mem_append.mp h with h1 | h2
  · rcases List.mem_append.mp h1 with h3 | h4
    · exact colon_not_mem_pad4 d.year h3
    · rcases List.mem_cons.mp h4 with h5 | h6
      · exact absurd h5 (by decide)
      · exact colon_not_mem_pad2 d.month h6
  · rcases List.mem_cons.mp h2 with h5 | h6
    · exact absurd h5 (by decide)
    · exact colon_not_mem_pad2 d.day h6

theorem colon_not_mem_value (p : PropertyId) : ':' ∉ p.value.data := by
  cases p <;> decide

theorem colon_not_mem_room_id (r : RoomInfo) : ':' ∉ r.room_id.data := by
  rcases r with r | r <;> cases r <;> decide

theorem pyDate_iso_inj {d1 d2 : PyDate} (h1 : d1.Valid) (h2 : d2.Valid)
    (h : d1.iso = d2.iso) : d1 = d2 := by
  have hdata : (pad4 d1.year ++ '-' :: pad2 d1.month) ++ '-' :: pad2 d1.day
      = (pad4 d2.year ++ '-' :: pad2 d2.month) ++ '-' :: pad2 d2.day :=
    congrArg String.data h
  obtain ⟨hleft, hright⟩ := List.append_inj hdata (by simp [pad4, pad2])
  have hd := List.tail_eq_of_cons_eq hright
  obtain ⟨hy, hmc⟩ := List.append_inj hleft (by simp [pad4])
  have hm := List.tail_eq_of_cons_eq hmc
  obtain ⟨hy1, hy2, hm1, hm2, hd1, hd2⟩ := h1
  obtain ⟨hz1, hz2, hn1, hn2, he1, he2⟩ := h2
  have ey : d1.year = d2.year := pad4_inj (by omega) (by omega) hy
  have em : d1.month = d2.month := pad2_inj (by omega) (by omega) hm
  have ed : d1.day = d2.day := pad2_inj (by omega) (by omega) hd
  cases d1; cases d2
  simp_all

theorem propertyId_value_inj : ∀ p q : PropertyId, p.value = q.value → p = q := by
  intro p q h
  cases p <;> cases q <;> first | rfl | exact absurd h (by decide)

theorem roomInfo_id_inj : ∀ a b : RoomInfo, a.room_id = b.room_id → a = b := by
  intro a b h
  rcases a with r | r <;> rcases b with q | q <;> cases r <;> cases q <;>
    first | rfl | exact absurd h (by decide)

theorem make_key_data (r : RoomAvailability) :
    (make_key r).data
      = r.property.value.data ++ ':' ::
          (r.room.room_id.data ++ ':' :: (r.check_in.iso.data ++ ':' :: r.check_out.iso.data)) := by
  simp [make_key, String.data_append, List.append_assoc]

theorem make_key_inj {r1 r2 : RoomAvailability}
    (hv1 : r1.check_in.Valid) (hv2 : r1.check_out.Valid)
    (hv3 : r2.check_in.Valid) (hv4 : r2.check_out.Valid)
    (h : make_key r1 = make_key r2) :
    r1.property = r2.property ∧ r1.room = r2.room ∧
      r1.check_in = r2.check_in ∧ r1.check_out = r2.check_out := by
  have hdata : (make_key r1).data = (make_key r2).data := congrArg String.data h
  rw [make_key_data, make_key_data] at hdata
  obtain ⟨hprop, hrest⟩ :=
    colon_split (colon_not_mem_value r1.property) (colon_not_mem_value r2.property) hdata
  obtain ⟨hroom, hrest2⟩ :=
    colon_split (colon_not_mem_room_id r1.room) (colon_not_mem_room_id r2.room) hrest
  obtain ⟨hci, hco⟩ :=
    colon_split (colon_not_mem_iso r1.check_in) (colon_not_mem_iso r2.check_in) hrest2
  refine ⟨propertyId_value_inj _ _ ?_, roomInfo_id_inj _ _ ?_, ?_, ?_⟩
  · exact String.ext hprop
  · exact String.ext hroom
  · exact pyDate_iso_inj hv1 hv3 (String.ext hci)
  · exact pyDate_iso_inj hv2 hv4 (String.ext hco)

/-! ### Helper lemmas: decisions across the cleanup sweep -/

theorem mem_dictSet {p : String × String} (k v : String) (l : List (String × String))
    (h : p ∈ dictSet k v l) : p = (k, v) ∨ p ∈ l := by
  unfold dictSet at h
  by_cases hf : (l.find? (fun q => q.1 == k)).isSome
  · rw [if_pos hf] at h
    obtain ⟨q, hq, hmap⟩ := List.mem_map.mp h
    by_cases hk : (q.1 == k) = true
    · rw [if_pos hk] at hmap
      exact Or.inl hmap.symm
    · rw [if_neg hk] at hmap
      exact Or.inr (hmap ▸ hq)
  · rw [if_neg hf] at h
    rcases List.mem_append.mp h with hmem | hmem
    · exact Or.inr hmem
    · exact Or.inl (List.mem_singleton.mp hmem)

/-- If a store `l'` agrees with `l` on the lookup of `room`'s key, then after
the cleanup sweep of `l'` the `should_notify` decision equals the decision on
`l`, provided `room`'s entry (if any) parses and is not aged exactly
`cooldown_hours` (the sweep drops a boundary-aged entry that `should_notify`
still counts as within cooldown). -/
theorem decision_filter_agree (l l' : List (String × String)) (h now : Int)
    (room : RoomAvailability)
    (hND : (l'.map Prod.fst).Nodup)
    (hfind : l'.find? (fun q => q.1 == make_key room)
      = l.find? (fun q => q.1 == make_key room))
    (hWF : ∀ p, l.find? (fun q => q.1 == make_key room) = some p →
      (fromisoformatOpt p.2).isSome)
    (hNB : ∀ p, l.find? (fun q => q.1 == make_key room) = some p →
      fromisoformatOpt p.2 ≠ some (now - 3600 * h)) :
    should_notify ⟨l'.filter (keepEntry (now - 3600 * h)), h⟩ now room
      = should_notify ⟨l, h⟩ now room := by
  unfold should_notify dictGet
  simp only
  rw [find?_filter_keep (now - 3600 * h) (make_key room) l' hND, hfind]
  cases hf : l.find? (fun q => q.1 == make_key room) with
  | none => rfl
  | some p =>
    obtain ⟨t, ht⟩ := Option.isSome_iff_exists.mp (hWF p hf)
    by_cases hkeep : keepEntry (now - 3600 * h) p = true
    · simp [hkeep]
    · have hkeepf : keepEntry (now - 3600 * h) p = false := by
        simpa [Bool.not_eq_true] using hkeep
      have hle : t ≤ now - 3600 * h := by
        unfold keepEntry at hkeepf
        rw [ht] at hkeepf
        simpa [decide_eq_false_iff_not] using hkeepf
      have hnbd : t ≠ now - 3600 * h := fun hcontra => hNB p hf (hcontra ▸ ht)
      have hdec : now - t > 3600 * h := by omega
      rw [show ((some p).bind fun q =>
          if keepEntry (now - 3600 * h) q = true then some q else none) = none by
        simp [hkeepf]]
      simp [ht, hdec]

/-! ### Claim theorems: the notification state store -/

/-- Counterexample to claim C2: `load()` can raise — state-file content that
is valid JSON but whose `notified` entry is not an ISO-8601 timestamp string
raises `ValueError` (from `datetime.fromisoformat` inside
`_cleanup_expired`, caught nowhere), and valid JSON that is not an object
raises `AttributeError` (from `data.get`). -/
theorem C2_counterexample :
    load (.json (.jobj [("notified", .jobj [("k", .jstr "not-a-timestamp")])]))
        ⟨[], 24⟩ 0 = .error .valueError ∧
    load (.json (.jarr [])) ⟨[], 24⟩ 0 = .error .attributeError :=
  ⟨rfl, rfl⟩

/-- Claim C2 as amended: `load()` tolerates a missing file (the store is left
as it was — empty on a fresh instance) and content that is not valid JSON
(`JSONDecodeError` is caught and the store is reset to empty); but content
that is valid JSON with non-ISO-8601 `notified` entries makes `load` raise
`ValueError` instead of resetting. -/
theorem C2_load_tolerance :
    (∀ (st : NotificationState) (now : Int), load .missing st now = .ok st.notified) ∧
    (∀ (st : NotificationState) (now : Int), load .invalidJson st now = .ok []) ∧
    load (.json (.jobj [("notified", .jobj [("k", .jstr "not-a-timestamp")])]))
        ⟨[], 24⟩ 0 = .error .valueError :=
  ⟨fun _ _ => rfl, fun _ _ => rfl, rfl⟩

/-- Claim C4: on a fresh store `should_notify` is true; immediately after
`mark_notified` it is false for the same key; and once strictly more than
`cooldown_hours` have elapsed since the mark it is true again. -/
theorem C4_notification_dedup (room : RoomAvailability) (h t t' now : Int)
    (hcd : 0 < h) (helapsed : t' - t > 3600 * h) :
    should_notify ⟨[], h⟩ now room = .ok true ∧
    mark_notified ⟨[], h⟩ t room
      = .ok (⟨[(make_key room, isoformat t)], h⟩,
          .json (.jobj [("notified", .jobj [(make_key room, .jstr (isoformat t))])])) ∧
    should_notify ⟨[(make_key room, isoformat t)], h⟩ t room = .ok false ∧
    should_notify ⟨[(make_key room, isoformat t)], h⟩ t' room = .ok true := by
  have hiso := fromisoformat_isoformat t
  have hgt : t > t - 3600 * h := by omega
  have hget : dictGet (make_key room) [(make_key room, isoformat t)]
      = some (isoformat t) := by
    simp [dictGet]
  refine ⟨rfl, ?_, ?_, ?_⟩
  · unfold mark_notified save
    rw [show dictSet (make_key room) (isoformat t) ([] : List (String × String))
        = [(make_key room, isoformat t)] from rfl]
    simp only [cleanupVals, hiso, Except.map, if_pos hgt]
    rfl
  · unfold should_notify
    simp only [hget, hiso, Except.ok.injEq, decide_eq_false_iff_not]
    omega
  · unfold should_notify
    simp only [hget, hiso, Except.ok.injEq, decide_eq_true_eq]
    omega

/-- Witness for C4 at a concrete room, cooldown 24 h, mark at tick 0 and a
query 25 h later. -/
theorem C4_witness :
    ((0:Int) < 24 ∧ (90000:Int) - 0 > 3600 * 24) ∧
    (should_notify ⟨[], 24⟩ 0
        ⟨.MIYAKOWASURE, .mw .SAKURA_RIVER, ⟨2026, 3, 15⟩, ⟨2026, 3, 16⟩, true, none, none⟩
      = .ok true ∧
     mark_notified ⟨[], 24⟩ 0
        ⟨.MIYAKOWASURE, .mw .SAKURA_RIVER, ⟨2026, 3, 15⟩, ⟨2026, 3, 16⟩, true, none, none⟩
      = .ok (⟨[(make_key ⟨.MIYAKOWASURE, .mw .SAKURA_RIVER, ⟨2026, 3, 15⟩, ⟨2026, 3, 16⟩,
                true, none, none⟩, isoformat 0)], 24⟩,
          .json (.jobj [("notified", .jobj [(make_key ⟨.MIYAKOWASURE, .mw .SAKURA_RIVER,
            ⟨2026, 3, 15⟩, ⟨2026, 3, 16⟩, true, none, none⟩, .jstr (isoformat 0))])])) ∧
     should_notify ⟨[(make_key ⟨.MIYAKOWASURE, .mw .SAKURA_RIVER, ⟨2026, 3, 15⟩,
          ⟨2026, 3, 16⟩, true, none, none⟩, isoformat 0)], 24⟩ 0
        ⟨.MIYAKOWASURE, .mw .SAKURA_RIVER, ⟨2026, 3, 15⟩, ⟨2026, 3, 16⟩, true, none, none⟩
      = .ok false ∧
     should_notify ⟨[(make_key ⟨.MIYAKOWASURE, .mw .SAKURA_RIVER, ⟨2026, 3, 15⟩,
          ⟨2026, 3, 16⟩, true, none, none⟩, isoformat 0)], 24⟩ 90000
        ⟨.MIYAKOWASURE, .mw .SAKURA_RIVER, ⟨2026, 3, 15⟩, ⟨2026, 3, 16⟩, true, none, none⟩
      = .ok true) :=
  ⟨⟨by decide, by decide⟩,
   C4_notification_dedup
     ⟨.MIYAKOWASURE, .mw .SAKURA_RIVER, ⟨2026, 3, 15⟩, ⟨2026, 3, 16⟩, true, none, none⟩
     24 0 90000 0 (by decide) (by decide)⟩

/-- Counterexample to claim C5: a key whose timestamp is aged exactly
`cooldown_hours` at save time.  The original store's `should_notify` is false
(the age is not strictly greater than the cooldown), but `save` drops the
entry (the expiry sweep keeps only strictly newer ones), so the reloaded
fresh store answers true: the round trip does not reproduce the decision. -/
theorem C5_counterexample :
    should_notify ⟨[(make_key ⟨.MIYAKOWASURE, .mw .SAKURA_RIVER, ⟨2026, 3, 15⟩,
          ⟨2026, 3, 16⟩, true, none, none⟩, isoformat 0)], 1⟩ 3600
        ⟨.MIYAKOWASURE, .mw .SAKURA_RIVER, ⟨2026, 3, 15⟩, ⟨2026, 3, 16⟩, true, none, none⟩
      = .ok false ∧
    save ⟨[(make_key ⟨.MIYAKOWASURE, .mw .SAKURA_RIVER, ⟨2026, 3, 15⟩,
          ⟨2026, 3, 16⟩, true, none, none⟩, isoformat 0)], 1⟩ 3600
      = .ok (⟨[], 1⟩, .json (.jobj [("notified", .jobj [])])) ∧
    load (.json (.jobj [("notified", .jobj [])])) ⟨[], 1⟩ 3600 = .ok [] ∧
    should_notify ⟨[], 1⟩ 3600
        ⟨.MIYAKOWASURE, .mw .SAKURA_RIVER, ⟨2026, 3, 15⟩, ⟨2026, 3, 16⟩, true, none, none⟩
      = .ok true :=
  ⟨rfl, rfl, rfl, rfl⟩

/-- Claim C5 as amended: for every store whose entries are timestamp
renderings with no duplicate keys, `save()` then `load()` into a fresh
instance reproduces the `should_notify` decision for every previously-marked
key whose timestamp is not aged exactly `cooldown_hours` at that moment (at
the exact boundary the sweep drops the entry and flips the decision from
false to true). -/
theorem C5_roundtrip (st : NotificationState) (now : Int) (room : RoomAvailability)
    (hWF : ∀ p ∈ st.notified, (fromisoformatOpt p.2).isSome)
    (hND : (st.notified.map Prod.fst).Nodup)
    (hNB : ∀ p ∈ st.notified, p.1 = make_key room →
      fromisoformatOpt p.2 ≠ some (now - 3600 * st.cooldown_hours)) :
    ∃ (st1 : NotificationState) (f : FileContent) (nd : List (String × String)),
      save st now = .ok (st1, f) ∧
      load f ⟨[], st.cooldown_hours⟩ now = .ok nd ∧
      should_notify ⟨nd, st.cooldown_hours⟩ now room = should_notify st now room := by
  have hclean := cleanupVals_eq_filter (now - 3600 * st.cooldown_hours) st.notified hWF
  refine ⟨⟨st.notified.filter (keepEntry (now - 3600 * st.cooldown_hours)),
      st.cooldown_hours⟩,
    .json (.jobj [("notified",
      .jobj ((st.notified.filter (keepEntry (now - 3600 * st.cooldown_hours))).map
        (fun p => (p.1, .jstr p.2))))]),
    st.notified.filter (keepEntry (now - 3600 * st.cooldown_hours)), ?_, ?_, ?_⟩
  · unfold save
    rw [hclean]
    rfl
  · rw [show load (.json (.jobj [("notified",
        .jobj ((st.notified.filter (keepEntry (now - 3600 * st.cooldown_hours))).map
          (fun p => (p.1, JVal.jstr p.2))))])) ⟨[], st.cooldown_hours⟩ now
      = cleanupJson ((st.notified.filter (keepEntry (now - 3600 * st.cooldown_hours))).map
          (fun p => (p.1, JVal.jstr p.2))) (now - 3600 * st.cooldown_hours) from rfl]
    exact cleanupJson_of_kept _ _ (fun p hp => keepEntry_of_mem_filter hp)
  · apply decision_filter_agree st.notified st.notified st.cooldown_hours now room hND rfl
    · intro p hfp
      exact hWF p (List.mem_of_find?_eq_some hfp)
    · intro p hfp
      have hpred := List.find?_some hfp
      simp only [beq_iff_eq] at hpred
      exact hNB p (List.mem_of_find?_eq_some hfp) hpred

/-- Witness for C5 at a concrete one-entry store away from the cooldown
boundary. -/
theorem C5_witness :
    ((∀ p ∈ [(make_key ⟨.MIYAKOWASURE, .mw .SAKURA_RIVER, ⟨2026, 3, 15⟩, ⟨2026, 3, 16⟩,
          true, none, none⟩, isoformat 0)], (fromisoformatOpt p.2).isSome) ∧
      (([(make_key ⟨.MIYAKOWASURE, .mw .SAKURA_RIVER, ⟨2026, 3, 15⟩, ⟨2026, 3, 16⟩,
          true, none, none⟩, isoformat 0)].map Prod.fst).Nodup) ∧
      (∀ p ∈ [(make_key ⟨.MIYAKOWASURE, .mw .SAKURA_RIVER, ⟨2026, 3, 15⟩, ⟨2026, 3, 16⟩,
          true, none, none⟩, isoformat 0)],
        p.1 = make_key ⟨.MIYAKOWASURE, .mw .SAKURA_RIVER, ⟨2026, 3, 15⟩, ⟨2026, 3, 16⟩,
          true, none, none⟩ →
        fromisoformatOpt p.2 ≠ some (1000 - 3600 * 24))) ∧
    (∃ (st1 : NotificationState) (f : FileContent) (nd : List (String × String)),
      save ⟨[(make_key ⟨.MIYAKOWASURE, .mw .SAKURA_RIVER, ⟨2026, 3, 15⟩, ⟨2026, 3, 16⟩,
          true, none, none⟩, isoformat 0)], 24⟩ 1000 = .ok (st1, f) ∧
      load f ⟨[], 24⟩ 1000 = .ok nd ∧
      should_notify ⟨nd, 24⟩ 1000
          ⟨.MIYAKOWASURE, .mw .SAKURA_RIVER, ⟨2026, 3, 15⟩, ⟨2026, 3, 16⟩, true, none, none⟩
        = should_notify ⟨[(make_key ⟨.MIYAKOWASURE, .mw .SAKURA_RIVER, ⟨2026, 3, 15⟩,
            ⟨2026, 3, 16⟩, true, none, none⟩, isoformat 0)], 24⟩ 1000
          ⟨.MIYAKOWASURE, .mw .SAKURA_RIVER, ⟨2026, 3, 15⟩, ⟨2026, 3, 16⟩, true, none,
            none⟩) :=
  ⟨⟨by decide, by decide, by decide⟩,
   C5_roundtrip
     ⟨[(make_key ⟨.MIYAKOWASURE, .mw .SAKURA_RIVER, ⟨2026, 3, 15⟩, ⟨2026, 3, 16⟩,
         true, none, none⟩, isoformat 0)], 24⟩ 1000
     ⟨.MIYAKOWASURE, .mw .SAKURA_RIVER, ⟨2026, 3, 15⟩, ⟨2026, 3, 16⟩, true, none, none⟩
     (by decide) (by decide) (by decide)⟩

/-- Counterexample to claim C7: the composite keys ARE distinct, yet marking
one room notified can still change `should_notify` for the other — the
`save()` inside `mark_notified` runs the expiry sweep, which drops the other
key's entry when it is aged exactly `cooldown_hours`, flipping its decision
from false to true. -/
theorem C7_counterexample :
    make_key ⟨.MIYAKOWASURE, .mw .SAKURA_RIVER, ⟨2026, 3, 15⟩, ⟨2026, 3, 16⟩,
        true, none, none⟩
      ≠ make_key ⟨.MIYAMASO, .mm .HINAKURA, ⟨2026, 3, 15⟩, ⟨2026, 3, 16⟩,
        true, none, none⟩ ∧
    should_notify ⟨[(make_key ⟨.MIYAMASO, .mm .HINAKURA, ⟨2026, 3, 15⟩, ⟨2026, 3, 16⟩,
          true, none, none⟩, isoformat 0)], 1⟩ 3600
        ⟨.MIYAMASO, .mm .HINAKURA, ⟨2026, 3, 15⟩, ⟨2026, 3, 16⟩, true, none, none⟩
      = .ok false ∧
    mark_notified ⟨[(make_key ⟨.MIYAMASO, .mm .HINAKURA, ⟨2026, 3, 15⟩, ⟨2026, 3, 16⟩,
          true, none, none⟩, isoformat 0)], 1⟩ 3600
        ⟨.MIYAKOWASURE, .mw .SAKURA_RIVER, ⟨2026, 3, 15⟩, ⟨2026, 3, 16⟩, true, none, none⟩
      = .ok (⟨[(make_key ⟨.MIYAKOWASURE, .mw .SAKURA_RIVER, ⟨2026, 3, 15⟩, ⟨2026, 3, 16⟩,
            true, none, none⟩, isoformat 3600)], 1⟩,
          .json (.jobj [("notified", .jobj [(make_key ⟨.MIYAKOWASURE, .mw .SAKURA_RIVER,
            ⟨2026, 3, 15⟩, ⟨2026, 3, 16⟩, true, none, none⟩,
            .jstr (isoformat 3600))])])) ∧
    should_notify ⟨[(make_key ⟨.MIYAKOWASURE, .mw .SAKURA_RIVER, ⟨2026, 3, 15⟩,
          ⟨2026, 3, 16⟩, true, none, none⟩, isoformat 3600)], 1⟩ 3600
        ⟨.MIYAMASO, .mm .HINAKURA, ⟨2026, 3, 15⟩, ⟨2026, 3, 16⟩, true, none, none⟩
      = .ok true :=
  ⟨by decide, rfl, rfl, rfl⟩

/-- Claim C7 as amended: `_make_key` gives distinct composite keys to every
pair of availability facts differing in property, room, or either date; and
marking one key notified leaves the other key's `should_notify` decision
unchanged provided the other's entry is not aged exactly `cooldown_hours` at
that moment (the expiry sweep inside `save` drops a boundary-aged entry,
flipping that decision from false to true). -/
theorem C7_key_independence :
    (∀ r1 r2 : RoomAvailability,
        r1.check_in.Valid → r1.check_out.Valid → r2.check_in.Valid → r2.check_out.Valid →
        (r1.property ≠ r2.property ∨ r1.room ≠ r2.room ∨
          r1.check_in ≠ r2.check_in ∨ r1.check_out ≠ r2.check_out) →
        make_key r1 ≠ make_key r2) ∧
    (∀ (st : NotificationState) (now : Int) (r1 r2 : RoomAvailability),
        (∀ p ∈ st.notified, (fromisoformatOpt p.2).isSome) →
        (st.notified.map Prod.fst).Nodup →
        make_key r1 ≠ make_key r2 →
        (∀ p ∈ st.notified, p.1 = make_key r2 →
          fromisoformatOpt p.2 ≠ some (now - 3600 * st.cooldown_hours)) →
        ∃ (st1 : NotificationState) (f : FileContent),
          mark_notified st now r1 = .ok (st1, f) ∧
          should_notify st1 now r2 = should_notify st now r2) := by
  constructor
  · intro r1 r2 hv1 hv2 hv3 hv4 hdiff heq
    obtain ⟨hp, hr, hci, hco⟩ := make_key_inj hv1 hv2 hv3 hv4 heq
    rcases hdiff with hd | hd | hd | hd
    · exact hd hp
    · exact hd hr
    · exact hd hci
    · exact hd hco
  · intro st now r1 r2 hWF hND hne hNB
    have hWF' : ∀ p ∈ dictSet (make_key r1) (isoformat now) st.notified,
        (fromisoformatOpt p.2).isSome := by
      intro p hp
      rcases mem_dictSet _ _ _ hp with rfl | hmem
      · rw [fromisoformat_isoformat]
        rfl
      · exact hWF p hmem
    have hclean := cleanupVals_eq_filter (now - 3600 * st.cooldown_hours)
      (dictSet (make_key r1) (isoformat now) st.notified) hWF'
    refine ⟨⟨(dictSet (make_key r1) (isoformat now) st.notified).filter
        (keepEntry (now - 3600 * st.cooldown_hours)), st.cooldown_hours⟩,
      .json (.jobj [("notified",
        .jobj (((dictSet (make_key r1) (isoformat now) st.notified).filter
          (keepEntry (now - 3600 * st.cooldown_hours))).map
            (fun p => (p.1, .jstr p.2))))]), ?_, ?_⟩
    · unfold mark_notified save
      rw [hclean]
      rfl
    · apply decision_filter_agree st.notified
        (dictSet (make_key r1) (isoformat now) st.notified)
        st.cooldown_hours now r2
        (nodup_keys_dictSet _ _ _ hND)
        (find?_dictSet_ne _ _ _ hne st.notified)
      · intro p hfp
        exact hWF p (List.mem_of_find?_eq_some hfp)
      · intro p hfp
        have hpred := List.find?_some hfp
        simp only [beq_iff_eq] at hpred
        exact hNB p (List.mem_of_find?_eq_some hfp) hpred

/-- Witness for C7: distinct keys for two concrete facts differing in
property and room, and an independent mark on a concrete store away from the
boundary. -/
theorem C7_witness :
    make_key ⟨.MIYAKOWASURE, .mw .SAKURA_RIVER, ⟨2026, 3, 15⟩, ⟨2026, 3, 16⟩,
        true, none, none⟩
      ≠ make_key ⟨.MIYAMASO, .mm .HINAKURA, ⟨2026, 3, 15⟩, ⟨2026, 3, 16⟩,
        true, none, none⟩ ∧
    (∃ (st1 : NotificationState) (f : FileContent),
      mark_notified ⟨[(make_key ⟨.MIYAMASO, .mm .HINAKURA, ⟨2026, 3, 15⟩, ⟨2026, 3, 16⟩,
          true, none, none⟩, isoformat 0)], 24⟩ 1000
        ⟨.MIYAKOWASURE, .mw .SAKURA_RIVER, ⟨2026, 3, 15⟩, ⟨2026, 3, 16⟩, true, none, none⟩
        = .ok (st1, f) ∧
      should_notify st1 1000
          ⟨.MIYAMASO, .mm .HINAKURA, ⟨2026, 3, 15⟩, ⟨2026, 3, 16⟩, true, none, none⟩
        = should_notify ⟨[(make_key ⟨.MIYAMASO, .mm .HINAKURA, ⟨2026, 3, 15⟩,
            ⟨2026, 3, 16⟩, true, none, none⟩, isoformat 0)], 24⟩ 1000
          ⟨.MIYAMASO, .mm .HINAKURA, ⟨2026, 3, 15⟩, ⟨2026, 3, 16⟩, true, none, none⟩) :=
  ⟨C7_key_independence.1
      ⟨.MIYAKOWASURE, .mw .SAKURA_RIVER, ⟨2026, 3, 15⟩, ⟨2026, 3, 16⟩, true, none, none⟩
      ⟨.MIYAMASO, .mm .HINAKURA, ⟨2026, 3, 15⟩, ⟨2026, 3, 16⟩, true, none, none⟩
      (by decide) (by decide) (by decide) (by decide) (Or.inl (by decide)),
   C7_key_independence.2
      ⟨[(make_key ⟨.MIYAMASO, .mm .HINAKURA, ⟨2026, 3, 15⟩, ⟨2026, 3, 16⟩,
          true, none, none⟩, isoformat 0)], 24⟩ 1000
      ⟨.MIYAKOWASURE, .mw .SAKURA_RIVER, ⟨2026, 3, 15⟩, ⟨2026, 3, 16⟩, true, none, none⟩
      ⟨.MIYAMASO, .mm .HINAKURA, ⟨2026, 3, 15⟩, ⟨2026, 3, 16⟩, true, none, none⟩
      (by decide) (by decide) (by decide) (by decide)⟩

/-- Claim C10: `should_notify` is a pure query — run as a state transformer
over the in-memory store and the on-disk file, it computes the same answer as
the pure reading and returns the store, the `cooldown_hours` field it carries
and the file unchanged, in every branch (key absent, unparsable timestamp, or
a cooldown comparison). -/
theorem C10_should_notify_pure (st : NotificationState) (file : FileContent)
    (now : Int) (room : RoomAvailability) :
    should_notify_step st file now room = (should_notify st now room, st, file) := by
  unfold should_notify_step should_notify
  cases h1 : dictGet (make_key room) st.notified with
  | none => rfl
  | some v =>
    simp only
    cases h2 : fromisoformatOpt v with
    | none => rfl
    | some t => rfl
